import Mathlib

/-!
Verification of the tool-call orchestration core of the DataOps assistant.

The orchestration core (Tool Registry, Tool Executor, Trace Recorder,
Conversation State, Orchestration Loop) is described by the specification;
its backend implementation is not part of the checked-in sources, which
contain only the frontend components and the infrastructure definitions.
The core is therefore modelled here from the specification, while
`chatAPI.sendMessage` is embedded directly from the frontend source.
-/

namespace DataOps

/-- Argument mapping passed to a tool: field name to value. -/
abbrev Args := List (String × String)

/-- Structured tool output, abstracted as a string payload. -/
abbrev Value := String

/-- Modelled from the spec: a Tool Call Request produced by the model
collaborator, with a call_id tying the request to its eventual result.
The backend implementation is missing from the sources. -/
structure ToolCallRequest where
  call_id : String
  tool_name : String
  arguments : Args
deriving Repr, DecidableEq

/-- Outcome status of a tool invocation. -/
inductive Status where
  | success
  | error
deriving Repr, DecidableEq

/-- Modelled from the spec: a Tool Result, immutable once created, with
status, optional error detail and timing fields. The backend implementation
is missing from the sources. -/
structure ToolResult where
  call_id : String
  tool_name : String
  output : Value
  status : Status
  error_detail : Option String
  started_at : Nat
  ended_at : Nat
deriving Repr, DecidableEq

/-- Modelled from the spec: a Tool Definition held by the Registry, with a
unique name, a parameter schema (required field names) and a bound handler
that may fail with any error, a failure carrying its message. The backend
implementation is missing from the sources. -/
structure ToolDefinition where
  name : String
  description : String
  required_params : List String
  handler : Args → Except String Value

/-- Modelled from the spec: the Tool Registry is the set of available tool
definitions. The backend implementation is missing from the sources. -/
abbrev Registry := List ToolDefinition

/-- Modelled from the spec: argument validation against the parameter
schema of a definition (required fields present). The backend implementation
is missing from the sources. -/
def validate (d : ToolDefinition) (args : Args) : Bool :=
  d.required_params.all (fun p => (args.lookup p).isSome)

/-- Modelled from the spec: the Tool Executor. It resolves the tool name via
the Registry (on miss producing an error result with detail "unknown tool"),
validates the arguments, invokes the handler catching any failure, records
timing, and returns the result together with the Registry it leaves behind
(which expresses that lookup and execution never mutate the Registry).
The backend implementation is missing from the sources. -/
def execute (reg : Registry) (tool_name : String) (args : Args)
    (call_id : String) (now : Nat) : ToolResult × Registry :=
  match reg.find? (fun d => d.name == tool_name) with
  | none =>
      ({ call_id := call_id, tool_name := tool_name, output := "",
         status := Status.error, error_detail := some "unknown tool",
         started_at := now, ended_at := now }, reg)
  | some d =>
      if validate d args then
        match d.handler args with
        | Except.ok v =>
            ({ call_id := call_id, tool_name := tool_name, output := v,
               status := Status.success, error_detail := none,
               started_at := now, ended_at := now }, reg)
        | Except.error msg =>
            ({ call_id := call_id, tool_name := tool_name, output := "",
               status := Status.error, error_detail := some msg,
               started_at := now, ended_at := now }, reg)
      else
        ({ call_id := call_id, tool_name := tool_name, output := "",
           status := Status.error,
           error_detail := some "validation error: missing required fields",
           started_at := now, ended_at := now }, reg)

theorem execute_registry (reg : Registry) (tool_name : String) (args : Args)
    (call_id : String) (now : Nat) :
    (execute reg tool_name args call_id now).2 = reg := by
  unfold execute
  split
  · rfl
  · split
    · split <;> rfl
    · rfl

theorem execute_unknown (reg : Registry) (tool_name : String) (args : Args)
    (call_id : String) (now : Nat)
    (h : reg.find? (fun d => d.name == tool_name) = none) :
    execute reg tool_name args call_id now =
      ({ call_id := call_id, tool_name := tool_name, output := "",
         status := Status.error, error_detail := some "unknown tool",
         started_at := now, ended_at := now }, reg) := by
  unfold execute
  rw [h]

theorem execute_handler_error (reg : Registry) (d : ToolDefinition)
    (tool_name : String) (args : Args) (call_id : String) (now : Nat)
    (msg : String)
    (hfind : reg.find? (fun t => t.name == tool_name) = some d)
    (hvalid : validate d args = true)
    (hfail : d.handler args = Except.error msg) :
    execute reg tool_name args call_id now =
      ({ call_id := call_id, tool_name := tool_name, output := "",
         status := Status.error, error_detail := some msg,
         started_at := now, ended_at := now }, reg) := by
  unfold execute
  rw [hfind]
  simp only [hvalid, if_true, hfail]

/-- Modelled from the spec: a Conversation Turn, polymorphic over the roles
user, assistant_text, assistant_tool_calls and tool_result. The backend
implementation is missing from the sources. -/
inductive Turn where
  | user (content : String)
  | assistant_text (content : String)
  | assistant_tool_calls (requests : List ToolCallRequest)
  | tool_result (result : ToolResult)
deriving Repr, DecidableEq

/-- Modelled from the spec: a Trace Entry, one per Tool Result, additionally
carrying the originating conversation turn index. The backend implementation
is missing from the sources. -/
structure TraceEntry where
  result : ToolResult
  turn_index : Nat
deriving Repr, DecidableEq

/-- Modelled from the spec: the record operation of the Trace Recorder,
which appends an entry and never rejects. The backend implementation is
missing from the sources. -/
def record (trace : List TraceEntry) (res : ToolResult) (turn_index : Nat) :
    List TraceEntry :=
  trace ++ [{ result := res, turn_index := turn_index }]

/-- Modelled from the spec: a Session groups one Conversation State (ordered
turn sequence) with one Trace Recorder log. The backend implementation is
missing from the sources. -/
structure Session where
  history : List Turn
  trace : List TraceEntry
deriving Repr, DecidableEq

/-- Modelled from the spec: the response of the model-invocation
collaborator, a tagged union of final text or tool calls, or the
ModelUnavailableError failure kind. The backend implementation is missing
from the sources. -/
inductive ModelResponse where
  | text (content : String)
  | tool_calls (requests : List ToolCallRequest)
  | unavailable (message : String)

/-- The model collaborator, as a function of the conversation history. -/
abbrev Model := List Turn → ModelResponse

/-- Modelled from the spec: loop-fatal failure reasons: the model
collaborator failed, or the iteration limit was exceeded. The backend
implementation is missing from the sources. -/
inductive FailureReason where
  | model_unavailable (message : String)
  | iteration_limit_exceeded
deriving Repr, DecidableEq

/-- Modelled from the spec: what run_turn returns to the caller: on success
the final text plus the accumulated trace, on failure an explicit reason
plus the partial trace. The backend implementation is missing from the
sources. -/
inductive RunOutcome where
  | success (final_text : String) (trace : List TraceEntry)
  | failure (reason : FailureReason) (partial_trace : List TraceEntry)
deriving Repr, DecidableEq

/-- Modelled from the spec: the DISPATCHING_TOOLS phase. For each Tool Call
Request in the turn, in request order, the Executor is called, the result is
handed to the Trace Recorder and appended as a tool_result turn. Returns the
updated session, the Registry left behind, and the produced results. The
backend implementation is missing from the sources. -/
def dispatch (reg : Registry) (reqs : List ToolCallRequest) (s : Session) :
    Session × Registry × List ToolResult :=
  match reqs with
  | [] => (s, reg, [])
  | r :: rs =>
      let e := execute reg r.tool_name r.arguments r.call_id s.history.length
      let s1 : Session :=
        { history := s.history ++ [Turn.tool_result e.1],
          trace := record s.trace e.1 s.history.length }
      let d := dispatch e.2 rs s1
      (d.1, d.2.1, e.1 :: d.2.2)

/-- Modelled from the spec: the Orchestration Loop state machine. The fuel
argument is the number of remaining model-tool round trips before the
iteration guard fires; at zero the loop transitions to FAILED with a
bounded-iteration error. A text response appends an assistant_text turn and
terminates in DONE; tool calls append an assistant_tool_calls turn, are
dispatched, and the loop returns to AWAITING_MODEL; a model failure is
loop-fatal. The backend implementation is missing from the sources. -/
def loop (reg : Registry) (model : Model) : Nat → Session → RunOutcome × Session
  | 0, s => (RunOutcome.failure FailureReason.iteration_limit_exceeded s.trace, s)
  | n + 1, s =>
      match model s.history with
      | ModelResponse.unavailable msg =>
          (RunOutcome.failure (FailureReason.model_unavailable msg) s.trace, s)
      | ModelResponse.text t =>
          (RunOutcome.success t s.trace,
           { history := s.history ++ [Turn.assistant_text t], trace := s.trace })
      | ModelResponse.tool_calls reqs =>
          let s1 : Session :=
            { history := s.history ++ [Turn.assistant_tool_calls reqs],
              trace := s.trace }
          let d := dispatch reg reqs s1
          loop d.2.1 model n d.1

/-- Modelled from the spec: run_turn, the single entry point of the core: it
appends the new user message as a user turn and runs the Orchestration Loop
with the configured maximum number of round trips. The backend
implementation is missing from the sources. -/
def run_turn (reg : Registry) (model : Model) (max_rounds : Nat)
    (s : Session) (user_message : String) : RunOutcome × Session :=
  loop reg model max_rounds
    { history := s.history ++ [Turn.user user_message], trace := s.trace }

/-- Session identifier. -/
abbrev SessionId := String

/-- The process-lifetime store of sessions, keyed by session id. -/
abbrev Store := List (SessionId × Session)

/-- Modelled from the spec: get_trace, the read-only accessor exposing the
ordered trace of a session for presentation; it returns the sequence
together with the store it leaves behind. The backend implementation is
missing from the sources. -/
def get_trace (st : Store) (sid : SessionId) : List TraceEntry × Store :=
  (match st.lookup sid with
   | some s => s.trace
   | none => [], st)

/-- Number of assistant_tool_calls turns in a history: one per model-tool
round trip that requested tools. -/
def countToolCallTurns : List Turn → Nat
  | [] => 0
  | Turn.assistant_tool_calls _ :: ts => countToolCallTurns ts + 1
  | _ :: ts => countToolCallTurns ts

/-- Number of tool_result turns in a history. -/
def countToolResultTurns : List Turn → Nat
  | [] => 0
  | Turn.tool_result _ :: ts => countToolResultTurns ts + 1
  | _ :: ts => countToolResultTurns ts

/-- Total number of Tool Call Requests issued across the
assistant_tool_calls turns of a history. -/
def countRequestsIssued : List Turn → Nat
  | [] => 0
  | Turn.assistant_tool_calls reqs :: ts => reqs.length + countRequestsIssued ts
  | _ :: ts => countRequestsIssued ts

theorem countToolCallTurns_append (l l' : List Turn) :
    countToolCallTurns (l ++ l') = countToolCallTurns l + countToolCallTurns l' := by
  induction l with
  | nil => simp [countToolCallTurns]
  | cons t ts ih =>
      cases t <;> (simp [countToolCallTurns, ih]; try omega)

theorem countToolResultTurns_append (l l' : List Turn) :
    countToolResultTurns (l ++ l') = countToolResultTurns l + countToolResultTurns l' := by
  induction l with
  | nil => simp [countToolResultTurns]
  | cons t ts ih =>
      cases t <;> (simp [countToolResultTurns, ih]; try omega)

theorem countRequestsIssued_append (l l' : List Turn) :
    countRequestsIssued (l ++ l') = countRequestsIssued l + countRequestsIssued l' := by
  induction l with
  | nil => simp [countRequestsIssued]
  | cons t ts ih =>
      cases t <;> (simp [countRequestsIssued, ih]; try omega)

theorem countToolCallTurns_map_result (rs : List ToolResult) :
    countToolCallTurns (rs.map Turn.tool_result) = 0 := by
  induction rs with
  | nil => rfl
  | cons r rs ih => simpa [countToolCallTurns] using ih

theorem countRequestsIssued_map_result (rs : List ToolResult) :
    countRequestsIssued (rs.map Turn.tool_result) = 0 := by
  induction rs with
  | nil => rfl
  | cons r rs ih => simpa [countRequestsIssued] using ih

theorem countToolResultTurns_map_result (rs : List ToolResult) :
    countToolResultTurns (rs.map Turn.tool_result) = rs.length := by
  induction rs with
  | nil => rfl
  | cons r rs ih => simpa [countToolResultTurns] using ih

theorem execute_call_id (reg : Registry) (tool_name : String) (args : Args)
    (call_id : String) (now : Nat) :
    (execute reg tool_name args call_id now).1.call_id = call_id := by
  unfold execute
  split
  · rfl
  · split
    · split <;> rfl
    · rfl

theorem dispatch_registry (reg : Registry) (reqs : List ToolCallRequest)
    (s : Session) : (dispatch reg reqs s).2.1 = reg := by
  induction reqs generalizing reg s with
  | nil => rfl
  | cons r rs ih =>
      simp only [dispatch]
      rw [ih]
      exact execute_registry reg r.tool_name r.arguments r.call_id s.history.length

theorem dispatch_history (reg : Registry) (reqs : List ToolCallRequest)
    (s : Session) :
    (dispatch reg reqs s).1.history =
      s.history ++ (dispatch reg reqs s).2.2.map Turn.tool_result := by
  induction reqs generalizing reg s with
  | nil => simp [dispatch]
  | cons r rs ih =>
      simp only [dispatch, List.map_cons]
      rw [ih]
      simp

theorem dispatch_call_ids (reg : Registry) (reqs : List ToolCallRequest)
    (s : Session) :
    (dispatch reg reqs s).2.2.map ToolResult.call_id =
      reqs.map ToolCallRequest.call_id := by
  induction reqs generalizing reg s with
  | nil => rfl
  | cons r rs ih =>
      simp only [dispatch, List.map_cons]
      rw [ih]
      simp [execute_call_id]

theorem dispatch_results_length (reg : Registry) (reqs : List ToolCallRequest)
    (s : Session) : (dispatch reg reqs s).2.2.length = reqs.length := by
  have h := congrArg List.length (dispatch_call_ids reg reqs s)
  simpa using h

theorem dispatch_trace_prefix (reg : Registry) (reqs : List ToolCallRequest)
    (s : Session) : s.trace <+: (dispatch reg reqs s).1.trace := by
  induction reqs generalizing reg s with
  | nil => exact List.prefix_rfl
  | cons r rs ih =>
      simp only [dispatch]
      refine List.IsPrefix.trans ?_ (ih _ _)
      exact List.prefix_append s.trace _

theorem loop_zero (reg : Registry) (model : Model) (s : Session) :
    loop reg model 0 s =
      (RunOutcome.failure FailureReason.iteration_limit_exceeded s.trace, s) := rfl

theorem loop_succ_unavailable (reg : Registry) (model : Model) (n : Nat)
    (s : Session) (msg : String)
    (h : model s.history = ModelResponse.unavailable msg) :
    loop reg model (n + 1) s =
      (RunOutcome.failure (FailureReason.model_unavailable msg) s.trace, s) := by
  simp only [loop, h]

theorem loop_succ_text (reg : Registry) (model : Model) (n : Nat)
    (s : Session) (t : String) (h : model s.history = ModelResponse.text t) :
    loop reg model (n + 1) s =
      (RunOutcome.success t s.trace,
       { history := s.history ++ [Turn.assistant_text t], trace := s.trace }) := by
  simp only [loop, h]

theorem loop_succ_tools (reg : Registry) (model : Model) (n : Nat)
    (s : Session) (reqs : List ToolCallRequest)
    (h : model s.history = ModelResponse.tool_calls reqs) :
    loop reg model (n + 1) s =
      loop
        (dispatch reg reqs
          { history := s.history ++ [Turn.assistant_tool_calls reqs],
            trace := s.trace }).2.1
        model n
        (dispatch reg reqs
          { history := s.history ++ [Turn.assistant_tool_calls reqs],
            trace := s.trace }).1 := by
  simp only [loop, h]

theorem loop_failure_trace (model : Model) :
    ∀ (n : Nat) (reg : Registry) (s : Session) (reason : FailureReason)
      (tr : List TraceEntry),
      (loop reg model n s).1 = RunOutcome.failure reason tr →
      tr = (loop reg model n s).2.trace := by
  intro n
  induction n with
  | zero =>
      intro reg s reason tr h
      rw [loop_zero] at h ⊢
      cases h
      rfl
  | succ n ih =>
      intro reg s reason tr h
      cases hm : model s.history with
      | unavailable msg =>
          rw [loop_succ_unavailable reg model n s msg hm] at h ⊢
          cases h
          rfl
      | text t =>
          rw [loop_succ_text reg model n s t hm] at h
          cases h
      | tool_calls reqs =>
          rw [loop_succ_tools reg model n s reqs hm] at h ⊢
          exact ih _ _ _ _ h

theorem loop_trace_prefix (model : Model) :
    ∀ (n : Nat) (reg : Registry) (s : Session),
      s.trace <+: (loop reg model n s).2.trace := by
  intro n
  induction n with
  | zero =>
      intro reg s
      exact List.prefix_rfl
  | succ n ih =>
      intro reg s
      cases hm : model s.history with
      | unavailable msg =>
          rw [loop_succ_unavailable reg model n s msg hm]
      | text t =>
          rw [loop_succ_text reg model n s t hm]
      | tool_calls reqs =>
          rw [loop_succ_tools reg model n s reqs hm]
          refine List.IsPrefix.trans ?_ (ih _ _)
          exact dispatch_trace_prefix reg reqs
            { history := s.history ++ [Turn.assistant_tool_calls reqs],
              trace := s.trace }

theorem loop_success_shape (model : Model) :
    ∀ (n : Nat) (reg : Registry) (s : Session) (t : String)
      (tr : List TraceEntry),
      (loop reg model n s).1 = RunOutcome.success t tr →
      tr = (loop reg model n s).2.trace ∧
      (loop reg model n s).2.history.getLast? = some (Turn.assistant_text t) := by
  intro n
  induction n with
  | zero =>
      intro reg s t tr h
      rw [loop_zero] at h
      cases h
  | succ n ih =>
      intro reg s t tr h
      cases hm : model s.history with
      | unavailable msg =>
          rw [loop_succ_unavailable reg model n s msg hm] at h
          cases h
      | text t' =>
          rw [loop_succ_text reg model n s t' hm] at h ⊢
          cases h
          exact ⟨rfl, by simp⟩
      | tool_calls reqs =>
          rw [loop_succ_tools reg model n s reqs hm] at h ⊢
          exact ih _ _ _ _ h

theorem loop_count_invariant (model : Model) :
    ∀ (n : Nat) (reg : Registry) (s : Session),
      countToolResultTurns s.history = countRequestsIssued s.history →
      countToolResultTurns (loop reg model n s).2.history =
        countRequestsIssued (loop reg model n s).2.history := by
  intro n
  induction n with
  | zero =>
      intro reg s h
      exact h
  | succ n ih =>
      intro reg s h
      cases hm : model s.history with
      | unavailable msg =>
          rw [loop_succ_unavailable reg model n s msg hm]
          exact h
      | text t =>
          rw [loop_succ_text reg model n s t hm]
          simp [countToolResultTurns_append, countRequestsIssued_append,
            countToolResultTurns, countRequestsIssued, h]
      | tool_calls reqs =>
          rw [loop_succ_tools reg model n s reqs hm]
          refine ih _ _ ?_
          rw [dispatch_history, countToolResultTurns_append,
            countRequestsIssued_append, countToolResultTurns_append,
            countRequestsIssued_append, countToolResultTurns_map_result,
            countRequestsIssued_map_result, dispatch_results_length]
          simp [countToolResultTurns, countRequestsIssued, h]

theorem loop_always_tools (model : Model)
    (halways : ∀ h, ∃ reqs, model h = ModelResponse.tool_calls reqs) :
    ∀ (n : Nat) (reg : Registry) (s : Session),
      (loop reg model n s).1 =
        RunOutcome.failure FailureReason.iteration_limit_exceeded
          (loop reg model n s).2.trace ∧
      countToolCallTurns (loop reg model n s).2.history =
        countToolCallTurns s.history + n := by
  intro n
  induction n with
  | zero =>
      intro reg s
      exact ⟨rfl, rfl⟩
  | succ n ih =>
      intro reg s
      obtain ⟨reqs, hm⟩ := halways s.history
      rw [loop_succ_tools reg model n s reqs hm]
      obtain ⟨h1, h2⟩ := ih
        (dispatch reg reqs
          { history := s.history ++ [Turn.assistant_tool_calls reqs],
            trace := s.trace }).2.1
        (dispatch reg reqs
          { history := s.history ++ [Turn.assistant_tool_calls reqs],
            trace := s.trace }).1
      refine ⟨h1, ?_⟩
      rw [h2, dispatch_history, countToolCallTurns_append,
        countToolCallTurns_append, countToolCallTurns_map_result]
      simp [countToolCallTurns]
      omega

/-- A demonstration tool: reports pipeline status. -/
def demoTool : ToolDefinition :=
  { name := "pipeline_status", description := "status of a pipeline",
    required_params := ["name"],
    handler := fun _ => Except.ok "Succeeded" }

/-- A demonstration request against the demonstration tool. -/
def req0 : ToolCallRequest :=
  { call_id := "id1", tool_name := "pipeline_status",
    arguments := [("name", "X")] }

/-- A model stub that always requests tool calls. -/
def alwaysToolsModel : Model := fun _ => ModelResponse.tool_calls [req0]

/-- A model stub that immediately returns final text. -/
def textModel : Model := fun _ => ModelResponse.text "done"

/-- A model stub that requests one tool call and then returns final text. -/
def demoModel : Model := fun h =>
  if countToolResultTurns h = 0 then ModelResponse.tool_calls [req0]
  else ModelResponse.text "Pipeline X succeeded."

/-- A model stub whose invocation itself fails. -/
def unavailableModel : Model := fun _ =>
  ModelResponse.unavailable "transport error"

/-- C1: for every model collaborator, including one that on every invocation
returns tool-call requests, run_turn terminates: the Loop reaches FAILED
within exactly the configured maximum number of model-tool round trips
(counted here as the assistant_tool_calls turns appended) and returns a
bounded-iteration error to the caller, never executing more round trips
than that maximum. -/
theorem c1_iteration_guard (reg : Registry) (model : Model) (max_rounds : Nat)
    (s : Session) (u : String)
    (halways : ∀ h, ∃ reqs, model h = ModelResponse.tool_calls reqs) :
    (run_turn reg model max_rounds s u).1 =
      RunOutcome.failure FailureReason.iteration_limit_exceeded
        (run_turn reg model max_rounds s u).2.trace ∧
    countToolCallTurns (run_turn reg model max_rounds s u).2.history =
      countToolCallTurns s.history + max_rounds := by
  unfold run_turn
  obtain ⟨h1, h2⟩ := loop_always_tools model halways max_rounds reg
    { history := s.history ++ [Turn.user u], trace := s.trace }
  refine ⟨h1, ?_⟩
  rw [h2, countToolCallTurns_append]
  simp [countToolCallTurns]

theorem c1_iteration_guard_witness :
    (run_turn [] alwaysToolsModel 2 { history := [], trace := [] } "hi").1 =
      RunOutcome.failure FailureReason.iteration_limit_exceeded
        (run_turn [] alwaysToolsModel 2 { history := [], trace := [] } "hi").2.trace ∧
    countToolCallTurns
        (run_turn [] alwaysToolsModel 2 { history := [], trace := [] } "hi").2.history =
      countToolCallTurns (Session.mk [] []).history + 2 :=
  c1_iteration_guard [] alwaysToolsModel 2 { history := [], trace := [] } "hi"
    (fun _ => ⟨[req0], rfl⟩)

/-- C2: every successful run_turn call returns the final assistant text
together with the trace accumulated for the session: the returned trace is
exactly the trace of the resulting session state and the final text is the
content of the assistant_text turn that ended the conversation. -/
theorem c2_run_turn_result (reg : Registry) (model : Model) (max_rounds : Nat)
    (s : Session) (u t : String) (tr : List TraceEntry)
    (h : (run_turn reg model max_rounds s u).1 = RunOutcome.success t tr) :
    tr = (run_turn reg model max_rounds s u).2.trace ∧
    (run_turn reg model max_rounds s u).2.history.getLast? =
      some (Turn.assistant_text t) := by
  unfold run_turn at h ⊢
  exact loop_success_shape model max_rounds reg _ t tr h

theorem c2_run_turn_result_witness :
    [] = (run_turn [] textModel 3 { history := [], trace := [] } "hi").2.trace ∧
    (run_turn [] textModel 3 { history := [], trace := [] } "hi").2.history.getLast? =
      some (Turn.assistant_text "done") :=
  c2_run_turn_result [] textModel 3 { history := [], trace := [] } "hi" "done" [] rfl

/-- C3: after any completed run_turn call the number of tool_result turns in
the Conversation State equals the number of Tool Call Requests issued, and
for every dispatched assistant_tool_calls turn the produced tool_result
turns are appended before the next model invocation, exactly one per
call_id it contained and in order. -/
theorem c3_result_request_pairing (reg : Registry) (model : Model) (n : Nat)
    (s : Session) (u : String)
    (hinv : countToolResultTurns s.history = countRequestsIssued s.history) :
    countToolResultTurns (run_turn reg model n s u).2.history =
      countRequestsIssued (run_turn reg model n s u).2.history ∧
    ∀ (reg2 : Registry) (reqs : List ToolCallRequest) (t : Session),
      (dispatch reg2 reqs t).1.history =
        t.history ++ (dispatch reg2 reqs t).2.2.map Turn.tool_result ∧
      (dispatch reg2 reqs t).2.2.map ToolResult.call_id =
        reqs.map ToolCallRequest.call_id := by
  constructor
  · unfold run_turn
    refine loop_count_invariant model n reg _ ?_
    rw [countToolResultTurns_append, countRequestsIssued_append]
    simp [countToolResultTurns, countRequestsIssued, hinv]
  · intro reg2 reqs t
    exact ⟨dispatch_history reg2 reqs t, dispatch_call_ids reg2 reqs t⟩

theorem c3_result_request_pairing_witness :
    countToolResultTurns
        (run_turn [demoTool] demoModel 3 { history := [], trace := [] } "status of X?").2.history =
      countRequestsIssued
        (run_turn [demoTool] demoModel 3 { history := [], trace := [] } "status of X?").2.history :=
  (c3_result_request_pairing [demoTool] demoModel 3 { history := [], trace := [] }
    "status of X?" rfl).1

/-- C4: executing an unregistered tool name yields a Tool Result with
status error and error detail "unknown tool", never raising past the
Executor boundary (execute is total and returns a result), and leaves the
Registry unchanged. -/
theorem c4_unknown_tool (reg : Registry) (tool_name : String) (args : Args)
    (call_id : String) (now : Nat)
    (h : ∀ d ∈ reg, d.name ≠ tool_name) :
    (execute reg tool_name args call_id now).1.status = Status.error ∧
    (execute reg tool_name args call_id now).1.error_detail =
      some "unknown tool" ∧
    (execute reg tool_name args call_id now).2 = reg := by
  have hf : reg.find? (fun d => d.name == tool_name) = none :=
    List.find?_eq_none.mpr (fun d hd => by simp [h d hd])
  rw [execute_unknown reg tool_name args call_id now hf]
  exact ⟨rfl, rfl, rfl⟩

theorem c4_unknown_tool_witness :
    (execute [demoTool] "no_such_tool" [] "id9" 0).1.status = Status.error ∧
    (execute [demoTool] "no_such_tool" [] "id9" 0).1.error_detail =
      some "unknown tool" ∧
    (execute [demoTool] "no_such_tool" [] "id9" 0).2 = [demoTool] :=
  c4_unknown_tool [demoTool] "no_such_tool" [] "id9" 0
    (by intro d hd; simp at hd; subst hd; simp [demoTool])

/-- A tool whose handler always fails with a timeout message. -/
def failingTool : ToolDefinition :=
  { name := "log_query", description := "queries logs",
    required_params := [],
    handler := fun _ => Except.error "timeout: tool execution exceeded limit" }

/-- A request against the failing tool. -/
def reqFail : ToolCallRequest :=
  { call_id := "id2", tool_name := "log_query", arguments := [] }

/-- A model stub that requests the failing tool once and then answers. -/
def oneFailCallModel : Model := fun h =>
  if countToolResultTurns h = 0 then ModelResponse.tool_calls [reqFail]
  else ModelResponse.text "The log query timed out."

/-- C5: a registered tool whose handler raises any failure (including a
timeout) yields a Tool Result with status error carrying the failure
message as error detail, never propagating the failure; and the Loop, on a
turn requesting that tool, appends the error result as a tool_result turn
and proceeds to the next model invocation (AWAITING_MODEL) rather than
transitioning to FAILED. -/
theorem c5_handler_failure_recovered (reg : Registry) (model : Model)
    (d : ToolDefinition) (req : ToolCallRequest) (msg : String) (n : Nat)
    (s : Session)
    (hfind : reg.find? (fun t => t.name == req.tool_name) = some d)
    (hvalid : validate d req.arguments = true)
    (hfail : d.handler req.arguments = Except.error msg)
    (hmodel : model s.history = ModelResponse.tool_calls [req]) :
    (execute reg req.tool_name req.arguments req.call_id
        (s.history.length + 1)).1.status = Status.error ∧
    (execute reg req.tool_name req.arguments req.call_id
        (s.history.length + 1)).1.error_detail = some msg ∧
    loop reg model (n + 1) s =
      loop reg model n
        { history := s.history ++
            [Turn.assistant_tool_calls [req],
             Turn.tool_result
               (execute reg req.tool_name req.arguments req.call_id
                 (s.history.length + 1)).1],
          trace := record s.trace
            (execute reg req.tool_name req.arguments req.call_id
              (s.history.length + 1)).1
            (s.history.length + 1) } := by
  have hexec := execute_handler_error reg d req.tool_name req.arguments
    req.call_id (s.history.length + 1) msg hfind hvalid hfail
  refine ⟨by rw [hexec], by rw [hexec], ?_⟩
  rw [loop_succ_tools reg model n s [req] hmodel]
  simp only [dispatch, execute_registry]
  simp [record, List.length_append, List.append_assoc]

theorem c5_handler_failure_recovered_witness :
    (execute [failingTool] reqFail.tool_name reqFail.arguments reqFail.call_id
        ((Session.mk [] []).history.length + 1)).1.status = Status.error ∧
    (execute [failingTool] reqFail.tool_name reqFail.arguments reqFail.call_id
        ((Session.mk [] []).history.length + 1)).1.error_detail =
      some "timeout: tool execution exceeded limit" ∧
    loop [failingTool] oneFailCallModel (1 + 1) (Session.mk [] []) =
      loop [failingTool] oneFailCallModel 1
        { history := (Session.mk [] []).history ++
            [Turn.assistant_tool_calls [reqFail],
             Turn.tool_result
               (execute [failingTool] reqFail.tool_name reqFail.arguments
                 reqFail.call_id ((Session.mk [] []).history.length + 1)).1],
          trace := record (Session.mk [] []).trace
            (execute [failingTool] reqFail.tool_name reqFail.arguments
              reqFail.call_id ((Session.mk [] []).history.length + 1)).1
            ((Session.mk [] []).history.length + 1) } :=
  c5_handler_failure_recovered [failingTool] oneFailCallModel failingTool
    reqFail "timeout: tool execution exceeded limit" 1 (Session.mk [] [])
    rfl rfl rfl rfl

/-- C6: a failure of the model collaborator itself and exhaustion of the
iteration limit are loop-fatal: the Loop ends in FAILED with an explicit
failure reason and the partial trace recorded up to that point is returned
to the caller; any failure returned by run_turn carries exactly the trace
of the final session state, and the entries already recorded are preserved
as a prefix of it, never discarded. -/
theorem c6_loop_fatal (reg : Registry) (model : Model) (n : Nat) (s : Session)
    (u msg : String)
    (hmodel : model (s.history ++ [Turn.user u]) = ModelResponse.unavailable msg) :
    run_turn reg model (n + 1) s u =
      (RunOutcome.failure (FailureReason.model_unavailable msg) s.trace,
       { history := s.history ++ [Turn.user u], trace := s.trace }) ∧
    run_turn reg model 0 s u =
      (RunOutcome.failure FailureReason.iteration_limit_exceeded s.trace,
       { history := s.history ++ [Turn.user u], trace := s.trace }) ∧
    ∀ (m2 : Model) (k : Nat) (reason : FailureReason) (tr : List TraceEntry),
      (run_turn reg m2 k s u).1 = RunOutcome.failure reason tr →
      tr = (run_turn reg m2 k s u).2.trace ∧ s.trace <+: tr := by
  refine ⟨?_, rfl, ?_⟩
  · unfold run_turn
    exact loop_succ_unavailable reg model n _ msg hmodel
  · intro m2 k reason tr h
    unfold run_turn at h ⊢
    have htr := loop_failure_trace m2 k reg _ reason tr h
    refine ⟨htr, ?_⟩
    rw [htr]
    exact loop_trace_prefix m2 k reg
      { history := s.history ++ [Turn.user u], trace := s.trace }

theorem c6_loop_fatal_witness :
    run_turn [] unavailableModel (1 + 1) (Session.mk [] []) "hi" =
      (RunOutcome.failure (FailureReason.model_unavailable "transport error") [],
       { history := [] ++ [Turn.user "hi"], trace := [] }) :=
  (c6_loop_fatal [] unavailableModel 1 (Session.mk [] []) "hi"
    "transport error" rfl).1

/-- C7: the Trace Recorder is append-only: record appends exactly one entry
and never rejects, the previous trace is always a prefix of the new one,
and every operation of the core (dispatching a turn of tool calls, a whole
run_turn) only extends the trace of the session, never mutating or removing
recorded entries. -/
theorem c7_trace_append_only :
    (∀ (tr : List TraceEntry) (res : ToolResult) (i : Nat),
       record tr res i = tr ++ [{ result := res, turn_index := i }]) ∧
    (∀ (tr : List TraceEntry) (res : ToolResult) (i : Nat),
       tr <+: record tr res i) ∧
    (∀ (reg : Registry) (reqs : List ToolCallRequest) (s : Session),
       s.trace <+: (dispatch reg reqs s).1.trace) ∧
    (∀ (reg : Registry) (model : Model) (n : Nat) (s : Session) (u : String),
       s.trace <+: (run_turn reg model n s u).2.trace) := by
  refine ⟨fun tr res i => rfl, fun tr res i => List.prefix_append tr _,
    dispatch_trace_prefix, ?_⟩
  intro reg model n s u
  unfold run_turn
  exact loop_trace_prefix model n reg
    { history := s.history ++ [Turn.user u], trace := s.trace }

/-- C9: get_trace is a pure, idempotent read: it leaves the session store
unchanged, and two calls with no intervening run_turn return identical
ordered sequences of Trace Entries. -/
theorem c9_get_trace_idempotent (st : Store) (sid : SessionId) :
    (get_trace st sid).2 = st ∧
    (get_trace (get_trace st sid).2 sid).1 = (get_trace st sid).1 :=
  ⟨rfl, rfl⟩

/-- Modelled from the spec: order-preserving insertion of the results of
concurrently dispatched Tool Call Requests of one turn: the completed
results, arriving in an arbitrary completion order, are matched back to the
requests by call_id and laid out in the order the requests appeared in the
turn of the model. The backend implementation is missing from the
sources. -/
def collectInRequestOrder (reqs : List ToolCallRequest)
    (completed : List ToolResult) : List ToolResult :=
  reqs.filterMap (fun r => completed.find? (fun res => res.call_id == r.call_id))

/-- Append a list of results to a session as tool_result turns, recording
each with the Trace Recorder. -/
def appendResultTurns (s : Session) : List ToolResult → Session
  | [] => s
  | res :: rest =>
      appendResultTurns
        { history := s.history ++ [Turn.tool_result res],
          trace := record s.trace res s.history.length } rest

/-- Modelled from the spec: concurrent dispatch of one turn of requests:
the results are appended to Conversation State in request order, not
completion order. The backend implementation is missing from the
sources. -/
def concurrent_dispatch (s : Session) (reqs : List ToolCallRequest)
    (completed : List ToolResult) : Session :=
  appendResultTurns s (collectInRequestOrder reqs completed)

theorem appendResultTurns_history (rs : List ToolResult) :
    ∀ s : Session,
      (appendResultTurns s rs).history = s.history ++ rs.map Turn.tool_result := by
  induction rs with
  | nil =>
      intro s
      simp [appendResultTurns]
  | cons r rest ih =>
      intro s
      simp only [appendResultTurns, List.map_cons]
      rw [ih]
      simp

theorem filterMap_some_eq_map {α β : Type _} (f : α → β) (l : List α) :
    (l.filterMap fun x => some (f x)) = l.map f := by
  induction l with
  | nil => rfl
  | cons a l ih => simp [List.filterMap_cons, ih]

theorem find_completed (reqs : List ToolCallRequest)
    (exec : ToolCallRequest → ToolResult) (completed : List ToolResult)
    (hids : (reqs.map ToolCallRequest.call_id).Nodup)
    (hexec : ∀ r ∈ reqs, (exec r).call_id = r.call_id)
    (hperm : completed.Perm (reqs.map exec)) :
    ∀ r ∈ reqs,
      completed.find? (fun res => res.call_id == r.call_id) = some (exec r) := by
  intro r hr
  have hmem : exec r ∈ completed :=
    hperm.symm.subset (List.mem_map_of_mem exec hr)
  have hsome : (completed.find? (fun res => res.call_id == r.call_id)).isSome :=
    List.find?_isSome.mpr ⟨exec r, hmem, by simp [hexec r hr]⟩
  obtain ⟨res, hres⟩ := Option.isSome_iff_exists.mp hsome
  have hpres : res.call_id = r.call_id := by
    have := List.find?_some hres
    simpa using this
  have hmem2 : res ∈ reqs.map exec :=
    hperm.subset (List.mem_of_find?_eq_some hres)
  obtain ⟨r', hr', hr'eq⟩ := List.mem_map.mp hmem2
  have hcid : r'.call_id = r.call_id := by
    rw [← hexec r' hr', hr'eq, hpres]
  have hrr : r' = r :=
    List.inj_on_of_nodup_map hids hr' hr hcid
  rw [hres, ← hr'eq, hrr]

/-- C8: for a turn containing multiple Tool Call Requests (with the
call_ids unique within the turn, as the data model requires), whatever the
completion order of the concurrently dispatched executions, the resulting
tool_result turns are appended to Conversation State in the order the
requests appeared in the turn of the model. -/
theorem c8_request_order (reqs : List ToolCallRequest)
    (exec : ToolCallRequest → ToolResult) (completed : List ToolResult)
    (s : Session)
    (hids : (reqs.map ToolCallRequest.call_id).Nodup)
    (hexec : ∀ r ∈ reqs, (exec r).call_id = r.call_id)
    (hperm : completed.Perm (reqs.map exec)) :
    collectInRequestOrder reqs completed = reqs.map exec ∧
    (concurrent_dispatch s reqs completed).history =
      s.history ++ reqs.map (fun r => Turn.tool_result (exec r)) := by
  have hcol : collectInRequestOrder reqs completed = reqs.map exec := by
    unfold collectInRequestOrder
    rw [List.filterMap_congr
      (fun r hr => find_completed reqs exec completed hids hexec hperm r hr)]
    exact filterMap_some_eq_map exec reqs
  refine ⟨hcol, ?_⟩
  unfold concurrent_dispatch
  rw [hcol, appendResultTurns_history]
  simp [List.map_map]

/-- Two demonstration requests with distinct call ids. -/
def reqA : ToolCallRequest :=
  { call_id := "a", tool_name := "t1", arguments := [] }

/-- Second demonstration request. -/
def reqB : ToolCallRequest :=
  { call_id := "b", tool_name := "t2", arguments := [] }

/-- A demonstration result for each request, keeping its call id. -/
def execDemo (r : ToolCallRequest) : ToolResult :=
  { call_id := r.call_id, tool_name := r.tool_name, output := "ok",
    status := Status.success, error_detail := none,
    started_at := 0, ended_at := 0 }

theorem c8_request_order_witness :
    collectInRequestOrder [reqA, reqB] [execDemo reqB, execDemo reqA] =
      [reqA, reqB].map execDemo ∧
    (concurrent_dispatch { history := [], trace := [] } [reqA, reqB]
        [execDemo reqB, execDemo reqA]).history =
      (Session.mk [] []).history ++
        [reqA, reqB].map (fun r => Turn.tool_result (execDemo r)) :=
  c8_request_order [reqA, reqB] execDemo [execDemo reqB, execDemo reqA]
    { history := [], trace := [] }
    (by decide) (fun r _ => rfl)
    (List.Perm.swap (execDemo reqA) (execDemo reqB) [])

/-- The parsed JSON body of a chat HTTP response as the frontend reads it:
the optional detail field (none when absent), the rest of the payload
abstracted as a string. -/
structure JsonBody where
  detail : Option String
  payload : String
deriving Repr, DecidableEq

/-- An HTTP response as observed by sendMessage: the ok flag of fetch, and
the parsed body, none when the body is not valid JSON. -/
structure HttpResponse where
  ok : Bool
  body : Option JsonBody
deriving Repr, DecidableEq

/-- Outcome of the sendMessage promise: resolved with the parsed body, or
rejected with the message of the thrown Error. -/
inductive SendOutcome where
  | resolved (body : JsonBody)
  | rejected (message : String)
deriving Repr, DecidableEq

/-- Shallow embedding of chatAPI.sendMessage from the frontend api service.
When the response is not ok, the body is parsed with a catch substituting
the object with detail "Request failed", and an Error is thrown whose
message is the detail when truthy ("" is falsy) and the fixed string
"Failed to send message" otherwise. When the response is ok, the promise of
response.json() is returned, which resolves with the parsed body and
rejects with a parse error when the body is not valid JSON. -/
def sendMessage (resp : HttpResponse) : SendOutcome :=
  if resp.ok then
    match resp.body with
    | some b => SendOutcome.resolved b
    | none => SendOutcome.rejected "SyntaxError: body is not valid JSON"
  else
    match (match resp.body with
           | some b => b
           | none => { detail := some "Request failed", payload := "" } : JsonBody).detail with
    | some d =>
        if d == "" then SendOutcome.rejected "Failed to send message"
        else SendOutcome.rejected d
    | none => SendOutcome.rejected "Failed to send message"

/-- C10, counterexample: on a non-ok response whose body is not valid JSON,
sendMessage rejects with "Request failed" (the detail substituted by the
catch), not with the fixed string "Failed to send message" the claim names
for that case; and on an ok response whose body is not valid JSON it does
not resolve but rejects with the parse failure. -/
theorem c10_counterexample :
    sendMessage { ok := false, body := none } =
      SendOutcome.rejected "Request failed" ∧
    SendOutcome.rejected "Request failed" ≠
      SendOutcome.rejected "Failed to send message" ∧
    sendMessage { ok := true, body := none } =
      SendOutcome.rejected "SyntaxError: body is not valid JSON" :=
  ⟨rfl, by decide, rfl⟩

/-- C10, amended: sendMessage resolves with the parsed JSON body exactly
when the response status is ok and the body parses as JSON (when ok with a
non-JSON body the parse rejection surfaces); when the status is not ok it
throws an Error whose message is the detail field of the body when present
and non-empty, the fixed string "Request failed" when the body cannot be
parsed as JSON, and "Failed to send message" when the parsed body lacks a
detail field or its detail is empty. -/
theorem c10_send_message_amended (resp : HttpResponse) :
    (∀ b, resp.ok = true → resp.body = some b →
       sendMessage resp = SendOutcome.resolved b) ∧
    (resp.ok = true → resp.body = none →
       sendMessage resp = SendOutcome.rejected "SyntaxError: body is not valid JSON") ∧
    (∀ b d, resp.ok = false → resp.body = some b → b.detail = some d →
       d ≠ "" → sendMessage resp = SendOutcome.rejected d) ∧
    (resp.ok = false → resp.body = none →
       sendMessage resp = SendOutcome.rejected "Request failed") ∧
    (∀ b, resp.ok = false → resp.body = some b →
       (b.detail = none ∨ b.detail = some "") →
       sendMessage resp = SendOutcome.rejected "Failed to send message") := by
  refine ⟨?_, ?_, ?_, ?_, ?_⟩
  · intro b hok hb
    simp [sendMessage, hok, hb]
  · intro hok hb
    simp [sendMessage, hok, hb]
  · intro b d hok hb hd hne
    simp [sendMessage, hok, hb, hd, hne]
  · intro hok hb
    simp [sendMessage, hok, hb]
  · intro b hok hb hd
    cases hd with
    | inl h => simp [sendMessage, hok, hb, h]
    | inr h => simp [sendMessage, hok, hb, h]

theorem c10_send_message_amended_witness :
    sendMessage { ok := false, body := some { detail := some "boom", payload := "" } } =
      SendOutcome.rejected "boom" :=
  (c10_send_message_amended
      { ok := false, body := some { detail := some "boom", payload := "" } }).2.2.1
    { detail := some "boom", payload := "" } "boom" rfl rfl rfl (by decide)

end DataOps
